import Mathlib

/-!
Verification of the text-from-image extraction core of the repository
(src/src/text_from_image_extractor.py) against its specification.

The embedding is shallow: the pure decision logic of each method is
translated into executable Lean definitions, and the external capability
providers (the OCR engine, the NER model, the image codec and the two
file stores) are parameters of those definitions, constrained only by
the interface the source relies on.  Python floats are modelled as
rationals, Python dicts as insertion-ordered association lists with the
in-place update Python dicts perform, and Python faults
(IndexError, KeyError) as an explicit error type.
-/

namespace TextExtractor

/-! ## Data model: boxes, fragments, dictionaries -/

/-- A raw bounding box as the OCR capability returns it: corner points with
rational (float) coordinates. -/
abbrev RawBox := List (List ℚ)

/-- A bounding box after the int() coercion of extract_text: corner points
with integer coordinates. -/
abbrev Box := List (List ℤ)

/-- Python int() on a float or rational value: truncation toward zero. -/
def pyInt (q : ℚ) : ℤ := if q < 0 then -(⌊-q⌋) else ⌊q⌋

/-- The coordinate coercion of extract_text (source lines 143-145):
bbox[i][j] = int(bbox[i][j]) for every corner and coordinate. -/
def coerceBox (b : RawBox) : Box := b.map (fun p => p.map pyInt)

/-- One OCR detection: the (bbox, text, score) triple the reader returns. -/
structure OcrTriple where
  bbox : RawBox
  text : String
  score : ℚ
deriving DecidableEq, Repr

/-- The dictionary from cleaned text to bounding box that extract_text
builds: an association list in insertion order, as a Python dict iterates. -/
abbrev Dict := List (String × Box)

/-- Assignment d[k] = v of a Python dict: if the key is present its value is
replaced in place (the key keeps its original position), otherwise the pair
is appended at the end. -/
def dictInsert (m : Dict) (k : String) (v : Box) : Dict :=
  match m with
  | [] => [(k, v)]
  | (k0, v0) :: rest => if k0 = k then (k0, v) :: rest else (k0, v0) :: dictInsert rest k v

/-- Lookup d[k] of a Python dict: the value stored at the key, none when
the key is absent (a KeyError in Python). -/
def lookupKey (m : Dict) (k : String) : Option Box :=
  match m with
  | [] => none
  | (k0, v0) :: rest => if k0 = k then some v0 else lookupKey rest k

/-- d.keys() of a Python dict, in insertion order. -/
def dictKeys (m : Dict) : List String := m.map Prod.fst

/-! ## Text cleaning (source line 147) -/

/-- Python str.title restricted to the characters that occur here: an
alphabetic character is uppercased when the previous character is not
alphabetic and lowercased otherwise; other characters pass through and
break the word. -/
def pyTitleGo : Bool → List Char → List Char
  | _, [] => []
  | prevAlpha, c :: cs =>
    if c.isAlpha then
      (if prevAlpha then c.toLower else c.toUpper) :: pyTitleGo true cs
    else
      c :: pyTitleGo false cs

/-- Python str.title on a whole string. -/
def pyTitle (s : String) : String := String.mk (pyTitleGo false s.data)

/-- The preprocessed_text of extract_text, source line 147: keep only the
characters that are alphabetic or a space, then title-case the result.
Char.isAlpha is the ASCII restriction of Python str.isalpha; every string
the claims mention is ASCII. -/
def cleanText (text : String) : String :=
  pyTitle (String.mk (text.data.filter (fun c => c.isAlpha || c == ' ')))

/-! ## Text Locator: the pure core of extract_text (source lines 138-153) -/

/-- The confidence threshold of extract_text, source line 138. -/
def threshold : ℚ := 25 / 100

/-- One iteration of the loop at source lines 141-152: coerce the box to
integers, clean the text, and store the pair when the score is above the
threshold. -/
def extractStep (m : Dict) (t : OcrTriple) : Dict :=
  if threshold < t.score then dictInsert m (cleanText t.text) (coerceBox t.bbox) else m

/-- The dictionary extract_text builds from the OCR output sequence
(the part of the method after the reader call). -/
def extract_text (ocr : List OcrTriple) : Dict :=
  ocr.foldl extractStep []

/-! ## Name Identifier: ner (source lines 204-226) -/

/-- A recognized entity as the NER capability returns it: a label and the
text of the span. -/
structure Entity where
  label : String
  text : String
deriving DecidableEq, Repr

/-- The NER capability provider: a single string in, the recognized
entities of that string out (the document.ents of the source). -/
abbrev NerModel := String → List Entity

/-- Python text.split applied with a single-space separator, on the
character list: empty pieces are kept, the empty string yields one empty
piece, exactly as Python s.split of one space does. -/
def splitChars : List Char → List (List Char)
  | [] => [[]]
  | c :: cs =>
    let r := splitChars cs
    if c = ' ' then [] :: r
    else
      match r with
      | [] => [[c]]
      | h :: t => (c :: h) :: t

/-- Python s.split with separator a single space. -/
def pySplit (s : String) : List String := (splitChars s.data).map (fun l => String.mk l)

/-- ner, source lines 219-226: for every key of the dictionary, collect the
text of every entity of that key whose label is PERSON and whose text
splits on spaces into exactly two tokens, in iteration order. -/
def ner (nlp : NerModel) (text_and_boxes : Dict) : List String :=
  (dictKeys text_and_boxes).flatMap (fun text =>
    ((nlp text).filter
      (fun ent => ent.label == "PERSON" && (pySplit ent.text).length == 2)).map Entity.text)

/-! ## Extraction Orchestrator: text_extraction_and_landmarking
(source lines 51-88), from the fragment dictionary on -/

/-- The faults the orchestrator body can raise in Python: indexing an empty
or short list, and looking up a missing dictionary key. -/
inductive PyError where
  | indexError
  | keyError
deriving DecidableEq, Repr

/-- The result dictionary of text_extraction_and_landmarking. -/
structure ExtractionResult where
  full_name : String
  first_name : String
  last_name : String
  box : Box
deriving DecidableEq, Repr

/-- Source lines 70-88 of text_extraction_and_landmarking: run ner, take
element 0 of its result (IndexError when the list is empty), split it on a
single space, take tokens 0 and 1 (IndexError when fewer than two), look
the full name up in the fragment dictionary (KeyError when absent), and
assemble the result. -/
def landmark (nlp : NerModel) (text_and_boxes : Dict) : Except PyError ExtractionResult :=
  match ner nlp text_and_boxes with
  | [] => .error .indexError
  | top :: _ =>
    match pySplit top with
    | [] => .error .indexError
    | [_] => .error .indexError
    | fn :: ln :: _ =>
      match lookupKey text_and_boxes top with
      | none => .error .keyError
      | some box => .ok ⟨top, fn, ln, box⟩

/-! ## Skew Corrector: get_angle and correct_skew (source lines 155-202) -/

/-- The angle normalization of get_angle, source lines 198-202.  The
argument is the raw rotation angle cv2.minAreaRect reads off the minimum
area rectangle of the foreground pixels (an external computation); the
normalization on it is the embedded logic. -/
def get_angle (angle : ℚ) : ℚ := if angle < -45 then -(90 + angle) else -angle

/-- The two file stores the class uses, each mapping a filename to the
image stored there (none when no decodable file is present): the
raw_data_folder and the processed_data_folder. Images are abstract values
of a parameter type; a stored value stands for the bytes of the file. -/
structure Stores (Img : Type) where
  raw : String → Option Img
  processed : String → Option Img

/-- correct_skew, source lines 169-176: read the raw image (none stands for
an unreadable file and aborts), normalize the minAreaRect angle through
get_angle, rotate only when the angle is nonzero, and save the result at
the same filename in the processed store.  rawAngle gives the minAreaRect
angle of an image and rotate is the Image.rotate of the imaging library,
both external. -/
def correct_skew {Img : Type} (rawAngle : Img → ℚ) (rotate : ℚ → Img → Img)
    (st : Stores Img) (image_path : String) : Option (Stores Img) :=
  match st.raw image_path with
  | none => none
  | some img0 =>
    let angle := get_angle (rawAngle img0)
    let img := if angle ≠ 0 then rotate angle img0 else img0
    some ⟨st.raw, fun p => if p = image_path then some img else st.processed p⟩

/-- extract_text with its file effects, source lines 124-153: first
correct_skew on the same filename, then read the processed image it wrote,
preprocess it (grayscale and inversion, the prep parameter), run the OCR
reader on it and build the fragment dictionary.  Returns the stores after
the call together with the dictionary. -/
def extract_text_full {Img : Type} (rawAngle : Img → ℚ) (rotate : ℚ → Img → Img)
    (prep : Img → Img) (readtext : Img → List OcrTriple)
    (st : Stores Img) (image_path : String) : Option (Stores Img × Dict) :=
  match correct_skew rawAngle rotate st image_path with
  | none => none
  | some st1 =>
    match st1.processed image_path with
    | none => none
    | some img => some (st1, extract_text (readtext (prep img)))

/-! ## Similarity Scorer: get_similarity_score (source lines 90-108)

The method delegates to fuzz.ratio of the external thefuzz library.
That scorer is not code of this repository; it is modelled here from its
documented algorithm and the contract in the spec: the indel similarity
2 * lcs / (len1 + len2) scaled to 0-100 and rounded to the nearest
integer (Python round, half to even), with two empty strings scoring
100. -/

/-- Longest common subsequence length of two character lists, structurally:
lcsAux a rest l2 computes the lcs of (a :: as) and l2 where rest already
computes the lcs of as against any list. -/
def lcsAux (a : Char) (rest : List Char → Nat) : List Char → Nat
  | [] => 0
  | b :: bs => if a = b then rest bs + 1 else max (lcsAux a rest bs) (rest (b :: bs))

/-- Longest common subsequence length of two character lists. -/
def lcs : List Char → List Char → Nat
  | [], _ => 0
  | a :: as, l2 => lcsAux a (lcs as) l2

/-- Python round: nearest integer, ties to the even one. -/
def pyRound (q : ℚ) : ℤ :=
  if q - ⌊q⌋ < 1 / 2 then ⌊q⌋
  else if 1 / 2 < q - ⌊q⌋ then ⌊q⌋ + 1
  else if ⌊q⌋ % 2 = 0 then ⌊q⌋ else ⌊q⌋ + 1

/-- get_similarity_score, source lines 90-108: fuzz.ratio of the two
strings, as modelled above. -/
def get_similarity_score (extracted_result real_result : String) : ℤ :=
  if extracted_result.data.length + real_result.data.length = 0 then 100
  else pyRound (200 * (lcs extracted_result.data real_result.data) /
    ((extracted_result.data.length + real_result.data.length : ℕ) : ℚ))

/-! ## Concrete instances used by counterexamples and witnesses -/

/-- A bounding box with integer corners, as in the single-candidate example
of the spec. -/
def boxJane : Box := [[1, 1], [2, 1], [2, 2], [1, 2]]

/-- An NER capability that recognizes the whole fragment Jane Doe as one
PERSON entity and nothing else. -/
def nlpJane : NerModel := fun s =>
  if s = "Jane Doe" then [⟨"PERSON", "Jane Doe"⟩] else []

/-- A fragment dictionary whose only key is Jane Doe. -/
def mJane : Dict := [("Jane Doe", boxJane)]

/-- An NER capability that recognizes no entity at all. -/
def nlpNone : NerModel := fun _ => []

/-- A fragment dictionary with one non-name key. -/
def mHello : Dict := [("Hello World", [[0, 0], [1, 0], [1, 1], [0, 1]])]

/-- An NER capability that recognizes only a non-PERSON entity. -/
def nlpNoPerson : NerModel := fun _ => [⟨"ORG", "Acme Inc"⟩]

/-- A fragment dictionary with one organisation-like key. -/
def mAcme : Dict := [("Acme Inc", [[0, 0], [1, 0], [1, 1], [0, 1]])]

/-- An NER capability that, on the fragment Mr John Smith, returns a PERSON
entity whose text is the proper sub-span John Smith: allowed by the NER
interface, which returns text spans of its input. -/
def nlpSpan : NerModel := fun s =>
  if s = "Mr John Smith" then [⟨"PERSON", "John Smith"⟩] else []

/-- A fragment dictionary whose only key is Mr John Smith. -/
def mSpan : Dict := [("Mr John Smith", [[0, 0], [9, 0], [9, 2], [0, 2]])]

/-- An NER capability returning three PERSON entities of one, two and three
tokens on the key of mThree. -/
def nlpThree : NerModel := fun s =>
  if s = "k" then
    [⟨"PERSON", "John"⟩, ⟨"PERSON", "John Smith"⟩, ⟨"PERSON", "John Michael Smith"⟩]
  else []

/-- A fragment dictionary with the one key nlpThree recognizes. -/
def mThree : Dict := [("k", [[0, 0], [1, 0], [1, 1], [0, 1]])]

/-- A raw bounding box with rational corners. -/
def bxA : RawBox := [[0, 0], [1, 0], [1, 1], [0, 1]]

/-- A second raw bounding box, distinct from bxA. -/
def bxB : RawBox := [[3, 0], [4, 0], [4, 1], [3, 1]]

/-- bxA after the integer coercion. -/
def bxAZ : Box := [[0, 0], [1, 0], [1, 1], [0, 1]]

/-- bxB after the integer coercion. -/
def bxBZ : Box := [[3, 0], [4, 0], [4, 1], [3, 1]]

/-- The OCR output of the spec example: a high-confidence J0hn and a
low-confidence Sm1th. -/
def ocr5 : List OcrTriple := [⟨bxA, "J0hn", 9 / 10⟩, ⟨bxB, "Sm1th", 1 / 10⟩]

/-- A retained OCR triple whose text cleans to Jane Doe. -/
def ocrT1 : OcrTriple := ⟨bxA, "Jane Doe", 9 / 10⟩

/-- A later retained OCR triple, with a different box, whose text also
cleans to Jane Doe. -/
def ocrT2 : OcrTriple := ⟨bxB, "Jane, Doe!", 4 / 10⟩

/-- A concrete pair of stores over Bool images: one raw file, an empty
processed store. -/
def stTest : Stores Bool := ⟨fun _ => some true, fun _ => none⟩

/-! ## Helper lemmas about the dictionary model and ner -/

lemma lookup_isSome_of_mem_keys : ∀ (m : Dict) (k : String), k ∈ dictKeys m →
    ∃ b, lookupKey m k = some b := by
  intro m k
  induction m with
  | nil => intro h; simp [dictKeys] at h
  | cons kv rest ih =>
    obtain ⟨k0, v0⟩ := kv
    intro h
    by_cases hk : k0 = k
    · exact ⟨v0, by simp [lookupKey, hk]⟩
    · have hmem : k ∈ dictKeys rest := by
        simp only [dictKeys, List.map_cons, List.mem_cons] at h
        rcases h with h1 | h1
        · exact absurd h1.symm hk
        · simpa [dictKeys] using h1
      obtain ⟨b, hb⟩ := ih hmem
      exact ⟨b, by simp [lookupKey, hk, hb]⟩

lemma mem_ner (nlp : NerModel) (m : Dict) (s : String) :
    s ∈ ner nlp m ↔ ∃ k ∈ dictKeys m, ∃ e ∈ nlp k,
      e.label = "PERSON" ∧ (pySplit e.text).length = 2 ∧ e.text = s := by
  simp only [ner, List.mem_flatMap, List.mem_map, List.mem_filter, Bool.and_eq_true,
    beq_iff_eq]
  constructor
  · rintro ⟨k, hk, e, ⟨he, hlab, hlen⟩, htext⟩
    exact ⟨k, hk, e, he, hlab, hlen, htext⟩
  · rintro ⟨k, hk, e, he, hlab, hlen, htext⟩
    exact ⟨k, hk, e, ⟨he, hlab, hlen⟩, htext⟩

/-! ## Claim theorems -/

/-- Claim C1, counterexample to the claim as stated: on a fragment mapping
where the Name Identifier finds zero valid candidates, the orchestrator
body does raise an index-out-of-range fault (the Python IndexError from
ner_results[0]); no NoNameFoundError exists in the code. -/
theorem C1_claim_counterexample :
    ner nlpNone mHello = [] ∧
      landmark nlpNone mHello = Except.error PyError.indexError :=
  ⟨rfl, rfl⟩

/-- Claim C1 as amended: for every fragment mapping and NER capability for
which the Name Identifier finds zero valid candidates, the orchestrator
fails with the index-out-of-range fault of ner_results[0]. -/
theorem C1_empty_candidates_index_fault (nlp : NerModel) (m : Dict)
    (h : ner nlp m = []) : landmark nlp m = Except.error PyError.indexError := by
  unfold landmark
  rw [h]

/-- Witness for C1: a mapping whose only entity is not a PERSON yields zero
candidates, and the orchestrator hits the index fault there. -/
theorem C1_empty_candidates_witness :
    landmark nlpNoPerson mAcme = Except.error PyError.indexError :=
  C1_empty_candidates_index_fault nlpNoPerson mAcme (by decide)

/-- Claim C2, counterexample to the claim as stated: the NER capability may
return a PERSON entity whose text is a proper sub-span of the fragment, so
the top candidate need not be a key of the fragment mapping and the
bounding-box lookup fails with a KeyError. -/
theorem C2_claim_counterexample :
    ner nlpSpan mSpan = ["John Smith"] ∧ lookupKey mSpan "John Smith" = none ∧
      landmark nlpSpan mSpan = Except.error PyError.keyError :=
  ⟨rfl, rfl, rfl⟩

/-- Claim C2 as amended: when the NER capability returns, on every input,
only entities whose text is the whole input fragment, the top candidate is
a key of the fragment mapping, its lookup succeeds and the orchestrator
returns a result. -/
theorem C2_whole_fragment_lookup (nlp : NerModel) (m : Dict)
    (hfull : ∀ s : String, ∀ e ∈ nlp s, e.text = s)
    (top : String) (rest : List String) (h : ner nlp m = top :: rest) :
    (∃ b, lookupKey m top = some b) ∧ ∃ r, landmark nlp m = Except.ok r := by
  have hmem : top ∈ ner nlp m := by rw [h]; exact List.mem_cons_self _ _
  rcases (mem_ner nlp m top).1 hmem with ⟨k, hk, e, he, hlab, hlen, htext⟩
  have hktop : top = k := by rw [← htext, hfull k e he]
  subst hktop
  obtain ⟨b, hb⟩ := lookup_isSome_of_mem_keys m top hk
  refine ⟨⟨b, hb⟩, ?_⟩
  rw [htext] at hlen
  have hsplit : ∃ x y, pySplit top = [x, y] := by
    rcases hsp : pySplit top with _ | ⟨x, _ | ⟨y, _ | _⟩⟩ <;>
      simp [hsp] at hlen
    exact ⟨x, y, rfl⟩
  obtain ⟨x, y, hxy⟩ := hsplit
  refine ⟨⟨top, x, y, b⟩, ?_⟩
  unfold landmark
  rw [h]
  dsimp only
  rw [hxy]
  dsimp only
  rw [hb]

/-- Witness for C2 as amended: with a whole-fragment NER capability and the
Jane Doe mapping, the lookup succeeds and the orchestrator returns a
result. -/
theorem C2_whole_fragment_witness :
    (∃ b, lookupKey mJane "Jane Doe" = some b) ∧
      ∃ r, landmark nlpJane mJane = Except.ok r :=
  C2_whole_fragment_lookup nlpJane mJane
    (by
      intro s e he
      by_cases hs : s = "Jane Doe"
      · subst hs
        simp [nlpJane] at he
        simp [he]
      · simp [nlpJane, hs] at he)
    "Jane Doe" [] (by decide)

/-- Claim C6: on a fragment mapping whose candidate list is exactly
[Jane Doe] with the stored bounding box, the orchestrator returns the full
name Jane Doe, first token Jane, second token Doe, and that box. -/
theorem C6_single_candidate_result (nlp : NerModel) (m : Dict) (bx : Box)
    (h1 : ner nlp m = ["Jane Doe"]) (h2 : lookupKey m "Jane Doe" = some bx) :
    landmark nlp m = Except.ok ⟨"Jane Doe", "Jane", "Doe", bx⟩ := by
  have hs : pySplit "Jane Doe" = ["Jane", "Doe"] := by decide
  unfold landmark
  rw [h1]
  dsimp only
  rw [hs]
  dsimp only
  rw [h2]

/-- Witness for C6: the concrete Jane Doe mapping with box
[[1,1],[2,1],[2,2],[1,2]] produces exactly the extraction result of the
claim. -/
theorem C6_single_candidate_witness :
    landmark nlpJane mJane = Except.ok ⟨"Jane Doe", "Jane", "Doe", boxJane⟩ :=
  C6_single_candidate_result nlpJane mJane boxJane (by decide) (by decide)

/-- Claim C7: the Name Identifier collects exactly the PERSON entities whose
text splits on spaces into exactly two tokens; of the PERSON entities John,
John Smith and John Michael Smith only John Smith is retained. -/
theorem C7_person_two_token_filter :
    (∀ (nlp : NerModel) (m : Dict) (s : String),
        s ∈ ner nlp m ↔ ∃ k ∈ dictKeys m, ∃ e ∈ nlp k,
          e.label = "PERSON" ∧ (pySplit e.text).length = 2 ∧ e.text = s) ∧
    ner nlpThree mThree = ["John Smith"] :=
  ⟨mem_ner, by decide⟩

/-- Claim C3, counterexample to the claim as stated: a raw rectangle angle
of -60 degrees normalizes to -30, not 30; and without a restriction on the
raw angle the output can leave the interval, as a raw angle of 60 shows. -/
theorem C3_claim_counterexample :
    get_angle (-60) = -30 ∧ get_angle (-60) ≠ 30 ∧
      ¬(-45 < get_angle 60 ∧ get_angle 60 ≤ 45) := by
  refine ⟨by norm_num [get_angle], by norm_num [get_angle], ?_⟩
  rw [show get_angle 60 = -60 by norm_num [get_angle]]
  norm_num

/-- Claim C3 as amended: get_angle returns -(90 + angle) below -45 and
-angle otherwise; for raw rectangle angles in [-90, 0), the interval
cv2.minAreaRect draws from, the normalized output lies in (-45, 45]; and a
raw angle of -60 normalizes to -30. -/
theorem C3_angle_normalization :
    (∀ a : ℚ,
        (a < -45 → get_angle a = -(90 + a)) ∧
        (-45 ≤ a → get_angle a = -a) ∧
        (-90 ≤ a → a < 0 → -45 < get_angle a ∧ get_angle a ≤ 45)) ∧
    get_angle (-60) = -30 := by
  constructor
  · intro a
    refine ⟨fun h => by simp [get_angle, h], fun h => ?_, fun h1 h2 => ?_⟩
    · rw [get_angle, if_neg (by linarith)]
    · unfold get_angle
      split_ifs with hc
      · constructor <;> linarith
      · push_neg at hc
        constructor <;> linarith
  · norm_num [get_angle]

/-! ## Helper lemmas for the Text Locator theorems -/

lemma mem_dictInsert : ∀ (m : Dict) (k : String) (v : Box) (kv : String × Box),
    kv ∈ dictInsert m k v → kv = (k, v) ∨ kv ∈ m := by
  intro m k v kv
  induction m with
  | nil => intro h; simp [dictInsert] at h; exact Or.inl h
  | cons kv0 rest ih =>
    obtain ⟨k0, v0⟩ := kv0
    intro h
    unfold dictInsert at h
    split_ifs at h with hk
    · rcases List.mem_cons.mp h with h1 | h1
      · subst hk; exact Or.inl h1
      · exact Or.inr (List.mem_cons_of_mem _ h1)
    · rcases List.mem_cons.mp h with h1 | h1
      · exact Or.inr (List.mem_cons.mpr (Or.inl h1))
      · rcases ih h1 with h2 | h2
        · exact Or.inl h2
        · exact Or.inr (List.mem_cons_of_mem _ h2)

lemma mem_extract_fold : ∀ (l : List OcrTriple) (m : Dict) (kv : String × Box),
    kv ∈ List.foldl extractStep m l →
    kv ∈ m ∨ ∃ t ∈ l, threshold < t.score ∧ kv.1 = cleanText t.text ∧
      kv.2 = coerceBox t.bbox := by
  intro l
  induction l with
  | nil => intro m kv h; exact Or.inl (by simpa using h)
  | cons t l ih =>
    intro m kv h
    rw [List.foldl_cons] at h
    rcases ih (extractStep m t) kv h with h1 | h1
    · unfold extractStep at h1
      split_ifs at h1 with hs
      · rcases mem_dictInsert m _ _ kv h1 with h2 | h2
        · subst h2
          exact Or.inr ⟨t, List.mem_cons_self _ _, hs, rfl, rfl⟩
        · exact Or.inl h2
      · exact Or.inl h1
    · obtain ⟨u, hu, hrest⟩ := h1
      exact Or.inr ⟨u, List.mem_cons_of_mem _ hu, hrest⟩

lemma extract_text_ocr5_eval : extract_text ocr5 = [("Jhn", bxAZ)] := by
  have hc1 : cleanText "J0hn" = "Jhn" := by decide
  have hb : coerceBox bxA = bxAZ := by norm_num [coerceBox, bxA, bxAZ, pyInt]
  norm_num [extract_text, ocr5, extractStep, threshold, dictInsert, hc1, hb,
    List.foldl_cons, List.foldl_nil]

/-- Claim C5, counterexample to the claim as stated: stripping non-alphabetic
characters turns J0hn into Jhn, not John, and j0hn SMITH! into Jhn Smith,
not John Smith; the retained entry of the OCR example is keyed Jhn. -/
theorem C5_claim_counterexample :
    cleanText "J0hn" = "Jhn" ∧ "Jhn" ≠ "John" ∧
      cleanText "j0hn SMITH!" = "Jhn Smith" ∧ "Jhn Smith" ≠ "John Smith" ∧
      extract_text ocr5 = [("Jhn", bxAZ)] :=
  ⟨by decide, by decide, by decide, by decide, extract_text_ocr5_eval⟩

/-- Claim C5 as amended: every entry of the Text Locator output comes from
a triple whose confidence is strictly above 0.25, keyed by the source text
with every character that is neither alphabetic nor a space removed and the
result title-cased; the OCR example [(bxA, J0hn, 0.9), (bxB, Sm1th, 0.1)]
keeps only its first entry, cleaned to Jhn, and j0hn SMITH! cleans to
Jhn Smith. -/
theorem C5_retained_fragments :
    (∀ (ocr : List OcrTriple) (kv : String × Box), kv ∈ extract_text ocr →
        ∃ t ∈ ocr, threshold < t.score ∧ kv.1 = cleanText t.text ∧
          kv.2 = coerceBox t.bbox) ∧
    extract_text ocr5 = [("Jhn", bxAZ)] ∧
    cleanText "j0hn SMITH!" = "Jhn Smith" := by
  refine ⟨?_, extract_text_ocr5_eval, by decide⟩
  intro ocr kv h
  rcases mem_extract_fold ocr [] kv h with h1 | h1
  · simp at h1
  · exact h1

/-! ## Helper lemmas for last-write-wins -/

lemma lookup_dictInsert : ∀ (m : Dict) (k : String) (v : Box) (k2 : String),
    lookupKey (dictInsert m k v) k2 = if k2 = k then some v else lookupKey m k2 := by
  intro m k v k2
  induction m with
  | nil =>
    by_cases h : k2 = k
    · simp [dictInsert, lookupKey, h]
    · simp [dictInsert, lookupKey, h, Ne.symm h]
  | cons kv0 rest ih =>
    obtain ⟨k0, v0⟩ := kv0
    by_cases h0 : k0 = k
    · subst h0
      by_cases h2 : k2 = k0
      · simp [dictInsert, lookupKey, h2]
      · simp [dictInsert, lookupKey, h2, Ne.symm h2]
    · by_cases h2 : k0 = k2
      · have hne : ¬(k2 = k) := by rw [← h2]; exact fun hh => h0 hh
        simp [dictInsert, lookupKey, h0, h2, hne]
      · simp [dictInsert, lookupKey, h0, h2, ih]

lemma lookup_foldl_no_match : ∀ (post : List OcrTriple) (m : Dict) (k : String),
    (∀ u ∈ post, threshold < u.score → cleanText u.text ≠ k) →
    lookupKey (List.foldl extractStep m post) k = lookupKey m k := by
  intro post
  induction post with
  | nil => intro m k _; rfl
  | cons u post ih =>
    intro m k h
    rw [List.foldl_cons, ih _ k (fun w hw => h w (List.mem_cons_of_mem _ hw))]
    unfold extractStep
    split_ifs with hs
    · rw [lookup_dictInsert,
        if_neg (fun hk => (h u (List.mem_cons_self _ _) hs) hk.symm)]
    · rfl

/-- Claim C9: when two retained triples produce identical cleaned text and
no retained triple after the second one produces it again, the Text Locator
output maps that text to the bounding box of the later triple, and (when the
two boxes differ) no longer to the earlier box. -/
theorem C9_last_write_wins (pre mid post : List OcrTriple) (t1 t2 : OcrTriple)
    (h1 : threshold < t1.score) (h2 : threshold < t2.score)
    (heq : cleanText t1.text = cleanText t2.text)
    (hpost : ∀ u ∈ post, threshold < u.score → cleanText u.text ≠ cleanText t2.text) :
    lookupKey (extract_text (pre ++ t1 :: mid ++ t2 :: post)) (cleanText t2.text)
        = some (coerceBox t2.bbox) ∧
      (coerceBox t1.bbox ≠ coerceBox t2.bbox →
        lookupKey (extract_text (pre ++ t1 :: mid ++ t2 :: post)) (cleanText t1.text)
          ≠ some (coerceBox t1.bbox)) := by
  have hmain : lookupKey (extract_text (pre ++ t1 :: mid ++ t2 :: post)) (cleanText t2.text)
      = some (coerceBox t2.bbox) := by
    have hre : pre ++ t1 :: mid ++ t2 :: post = (pre ++ t1 :: mid) ++ t2 :: post := by
      simp
    rw [extract_text, hre, List.foldl_append, List.foldl_cons,
      lookup_foldl_no_match post _ _ hpost]
    unfold extractStep
    rw [if_pos h2, lookup_dictInsert, if_pos rfl]
  refine ⟨hmain, fun hne => ?_⟩
  rw [heq, hmain]
  simp only [Ne, Option.some.injEq]
  exact fun hc => hne hc.symm

/-- Witness for C9: two retained triples, Jane Doe at box bxA then
Jane, Doe! at box bxB, both cleaning to Jane Doe; the output keeps bxB. -/
theorem C9_last_write_wins_witness :
    lookupKey (extract_text ([] ++ ocrT1 :: [] ++ ocrT2 :: [])) (cleanText ocrT2.text)
        = some (coerceBox ocrT2.bbox) ∧
      (coerceBox ocrT1.bbox ≠ coerceBox ocrT2.bbox →
        lookupKey (extract_text ([] ++ ocrT1 :: [] ++ ocrT2 :: [])) (cleanText ocrT1.text)
          ≠ some (coerceBox ocrT1.bbox)) :=
  C9_last_write_wins [] [] [] ocrT1 ocrT2
    (by norm_num [threshold, ocrT1])
    (by norm_num [threshold, ocrT2])
    (by decide)
    (by simp)

/-- Claim C8: when the raw image is readable, correct_skew succeeds, leaves
the raw store untouched, and writes at the same filename of the processed
store the raw image itself when the normalized angle is zero (a straight
copy, not a rotate call) and the rotated image otherwise; other filenames
of the processed store are unchanged. -/
theorem C8_skew_zero_copy (Img : Type) (rawAngle : Img → ℚ)
    (rotate : ℚ → Img → Img) (st : Stores Img) (p : String) (img0 : Img)
    (h : st.raw p = some img0) :
    ∃ st1, correct_skew rawAngle rotate st p = some st1 ∧
      st1.raw = st.raw ∧
      (get_angle (rawAngle img0) = 0 → st1.processed p = some img0) ∧
      (get_angle (rawAngle img0) ≠ 0 →
        st1.processed p = some (rotate (get_angle (rawAngle img0)) img0)) ∧
      ∀ q, q ≠ p → st1.processed q = st.processed q := by
  refine ⟨⟨st.raw, fun q => if q = p then
      some (if get_angle (rawAngle img0) ≠ 0
        then rotate (get_angle (rawAngle img0)) img0 else img0)
      else st.processed q⟩, ?_, rfl, ?_, ?_, ?_⟩
  · unfold correct_skew
    rw [h]
  · intro h0
    simp [h0]
  · intro h0
    simp [h0]
  · intro q hq
    simp [hq]

/-- Witness for C8: a one-file raw store over Bool images with a zero
minAreaRect angle; the processed store receives the raw image unchanged. -/
theorem C8_skew_zero_copy_witness :
    ∃ st1, correct_skew (fun _ => (0 : ℚ)) (fun _ i => i) stTest "id.png" = some st1 ∧
      st1.raw = stTest.raw ∧
      (get_angle 0 = 0 → st1.processed "id.png" = some true) ∧
      (get_angle 0 ≠ 0 → st1.processed "id.png" = some true) ∧
      ∀ q, q ≠ "id.png" → st1.processed q = stTest.processed q :=
  C8_skew_zero_copy Bool (fun _ => 0) (fun _ i => i) stTest "id.png" true rfl

/-- Claim C10: extract_text itself first runs correct_skew on the same
filename; when the raw image is readable the call succeeds, the raw store
is unmodified, the processed store is rewritten at that filename with the
skew-corrected image on every call, and the OCR reader is applied to the
preprocessed form of exactly that freshly written image. -/
theorem C10_locator_runs_skew_first (Img : Type) (rawAngle : Img → ℚ)
    (rotate : ℚ → Img → Img) (prep : Img → Img)
    (readtext : Img → List OcrTriple) (st : Stores Img) (p : String)
    (img0 : Img) (h : st.raw p = some img0) :
    ∃ st1, extract_text_full rawAngle rotate prep readtext st p
        = some (st1, extract_text (readtext (prep
            (if get_angle (rawAngle img0) ≠ 0
              then rotate (get_angle (rawAngle img0)) img0 else img0)))) ∧
      st1.raw = st.raw ∧
      st1.processed p = some (if get_angle (rawAngle img0) ≠ 0
          then rotate (get_angle (rawAngle img0)) img0 else img0) ∧
      ∀ q, q ≠ p → st1.processed q = st.processed q := by
  refine ⟨⟨st.raw, fun q => if q = p then
      some (if get_angle (rawAngle img0) ≠ 0
        then rotate (get_angle (rawAngle img0)) img0 else img0)
      else st.processed q⟩, ?_, rfl, by simp, ?_⟩
  · unfold extract_text_full correct_skew
    rw [h]
    simp
  · intro q hq
    simp [hq]

/-- Witness for C10: the one-file raw store over Bool images; the locator
writes the processed file and hands the OCR reader the corrected image. -/
theorem C10_locator_runs_skew_first_witness :
    ∃ st1, extract_text_full (fun _ => (0 : ℚ)) (fun _ i => i) id
          (fun _ => []) stTest "id.png"
        = some (st1, extract_text ((fun _ => [])
            (id (if get_angle 0 ≠ 0 then true else true)))) ∧
      st1.raw = stTest.raw ∧
      st1.processed "id.png" = some (if get_angle 0 ≠ 0 then true else true) ∧
      ∀ q, q ≠ "id.png" → st1.processed q = stTest.processed q :=
  C10_locator_runs_skew_first Bool (fun _ => 0) (fun _ i => i) id
    (fun _ => []) stTest "id.png" true rfl

/-! ## Helper lemmas for the Similarity Scorer -/

lemma lcsAux_le_of (a : Char) (rest : List Char → Nat) (k : Nat)
    (hk : ∀ bs, rest bs ≤ k) : ∀ l2, lcsAux a rest l2 ≤ k + 1 := by
  intro l2
  induction l2 with
  | nil => simp [lcsAux]
  | cons b bs ih =>
    unfold lcsAux
    split_ifs with hab
    · exact Nat.add_le_add_right (hk bs) 1
    · exact max_le ih (le_trans (hk (b :: bs)) (Nat.le_succ k))

lemma lcs_le_left : ∀ (l1 l2 : List Char), lcs l1 l2 ≤ l1.length := by
  intro l1
  induction l1 with
  | nil => intro l2; simp [lcs]
  | cons a as ih =>
    intro l2
    unfold lcs
    simpa using lcsAux_le_of a (lcs as) as.length ih l2

lemma lcsAux_le_len (a : Char) (rest : List Char → Nat)
    (hrest : ∀ bs, rest bs ≤ bs.length) : ∀ l2, lcsAux a rest l2 ≤ l2.length := by
  intro l2
  induction l2 with
  | nil => simp [lcsAux]
  | cons b bs ih =>
    unfold lcsAux
    split_ifs with hab
    · simpa using Nat.add_le_add_right (hrest bs) 1
    · exact max_le (le_trans ih (by simp)) (hrest (b :: bs))

lemma lcs_le_right : ∀ (l1 l2 : List Char), lcs l1 l2 ≤ l2.length := by
  intro l1
  induction l1 with
  | nil => intro l2; simp [lcs]
  | cons a as ih =>
    intro l2
    unfold lcs
    exact lcsAux_le_len a (lcs as) ih l2

lemma lcs_self : ∀ l : List Char, lcs l l = l.length := by
  intro l
  induction l with
  | nil => rfl
  | cons a as ih => simp [lcs, lcsAux, ih]

lemma pyRound_nonneg (q : ℚ) (h : 0 ≤ q) : 0 ≤ pyRound q := by
  unfold pyRound
  have hf : (0 : ℤ) ≤ ⌊q⌋ := Int.floor_nonneg.2 h
  split_ifs <;> omega

lemma pyRound_le_of_le (q : ℚ) (B : ℤ) (h : q ≤ (B : ℚ)) : pyRound q ≤ B := by
  unfold pyRound
  have hf : ⌊q⌋ ≤ B := by
    have h2 := Int.floor_le_floor h
    simpa using h2
  split_ifs with r1 r2 r3
  · exact hf
  · have hq : (⌊q⌋ : ℚ) + 1 / 2 ≤ q := by push_neg at r1; linarith
    have hlt : (⌊q⌋ : ℚ) < (B : ℚ) := by linarith
    have : ⌊q⌋ < B := by exact_mod_cast hlt
    omega
  · exact hf
  · have hq : (⌊q⌋ : ℚ) + 1 / 2 ≤ q := by push_neg at r1; linarith
    have hlt : (⌊q⌋ : ℚ) < (B : ℚ) := by linarith
    have : ⌊q⌋ < B := by exact_mod_cast hlt
    omega

lemma pyRound_intCast (z : ℤ) : pyRound (z : ℚ) = z := by
  unfold pyRound
  rw [Int.floor_intCast]
  norm_num

/-- Claim C4: the Similarity Scorer is a total function returning an
integer in [0, 100]; every string scores 100 against itself (the empty
string included), and Jane Doe against John Doe scores strictly between 0
and 100. -/
theorem C4_similarity_contract :
    (∀ s1 s2 : String, 0 ≤ get_similarity_score s1 s2 ∧
        get_similarity_score s1 s2 ≤ 100) ∧
    (∀ s : String, get_similarity_score s s = 100) ∧
    0 < get_similarity_score "Jane Doe" "John Doe" ∧
    get_similarity_score "Jane Doe" "John Doe" < 100 := by
  have heval : get_similarity_score "Jane Doe" "John Doe" = 75 := by
    have hlcs : lcs "Jane Doe".data "John Doe".data = 6 := by decide
    have hl1 : "Jane Doe".data.length = 8 := by decide
    have hl2 : "John Doe".data.length = 8 := by decide
    unfold get_similarity_score
    rw [hlcs, hl1, hl2]
    norm_num
    rw [show (75 : ℚ) = ((75 : ℤ) : ℚ) by norm_num, pyRound_intCast]
  refine ⟨?_, ?_, by rw [heval]; norm_num, by rw [heval]; norm_num⟩
  · intro s1 s2
    unfold get_similarity_score
    by_cases hn : s1.data.length + s2.data.length = 0
    · rw [if_pos hn]
      norm_num
    · rw [if_neg hn]
      have hnpos : 0 < s1.data.length + s2.data.length := Nat.pos_of_ne_zero hn
      have hq : (0 : ℚ) < ((s1.data.length + s2.data.length : ℕ) : ℚ) := by
        exact_mod_cast hnpos
      constructor
      · apply pyRound_nonneg
        positivity
      · apply pyRound_le_of_le
        rw [div_le_iff₀ hq]
        have hb1 := lcs_le_left s1.data s2.data
        have hb2 := lcs_le_right s1.data s2.data
        have hb : 200 * lcs s1.data s2.data ≤
            100 * (s1.data.length + s2.data.length) := by omega
        exact_mod_cast hb
  · intro s
    unfold get_similarity_score
    by_cases hn : s.data.length + s.data.length = 0
    · rw [if_pos hn]
    · rw [if_neg hn, lcs_self]
      have hl : s.data.length ≠ 0 := by omega
      have hlq : ((s.data.length : ℕ) : ℚ) ≠ 0 := by exact_mod_cast hl
      have hcast : ((s.data.length + s.data.length : ℕ) : ℚ) =
          ((s.data.length : ℕ) : ℚ) + ((s.data.length : ℕ) : ℚ) := by
        exact_mod_cast rfl
      rw [hcast]
      have hval : (200 : ℚ) * ((s.data.length : ℕ) : ℚ) /
          (((s.data.length : ℕ) : ℚ) + ((s.data.length : ℕ) : ℚ)) = ((100 : ℤ) : ℚ) := by
        set L : ℚ := ((s.data.length : ℕ) : ℚ) with hL
        rw [show ((100 : ℤ) : ℚ) = (100 : ℚ) from by norm_num]
        field_simp
        ring
      rw [hval, pyRound_intCast]

end TextExtractor
